import Mathlib

/-!
Shallow embedding of the stm32-eth driver core (src/src/lib.rs and
src/src/phy_dp83848.rs) together with proofs about its PHY control plane,
PHY status equivalence and the transmit/receive descriptor-ring interface.
Machine integers are modelled as `Nat`; the bit masks below are the
register constants of `phy_dp83848.rs`.
-/

/-- Register address of the basic mode control register (BMCR). -/
def PHY_REG_BMCR : Nat := 0x00

/-- Register address of the basic mode status register (BMSR). -/
def PHY_REG_BMSR : Nat := 0x01

/-- BMCR reset bit, self-clearing upon completed reset. -/
def PHY_REG_BMCR_RESET : Nat := 2 ^ 15

/-- BMCR auto-negotiation enable bit. -/
def PHY_REG_BMCR_AUTO_NEG : Nat := 2 ^ 12

/-- BMSR: able to perform 100BASE-TX full duplex. -/
def PHY_REG_BMSR_100_FULL : Nat := 2 ^ 14

/-- BMSR: able to perform 100BASE-TX half duplex. -/
def PHY_REG_BMSR_100_HALF : Nat := 2 ^ 13

/-- BMSR: able to perform 10BASE-T full duplex. -/
def PHY_REG_BMSR_10_FULL : Nat := 2 ^ 12

/-- BMSR: able to perform 10BASE-T half duplex. -/
def PHY_REG_BMSR_10_HALF : Nat := 2 ^ 11

/-- BMSR auto-negotiation complete bit. -/
def PHY_REG_BMSR_AUTONEG_COMPLETE : Nat := 2 ^ 5

/-- BMSR remote-fault bit. -/
def PHY_REG_BMSR_REMOTE_FAULT : Nat := 2 ^ 4

/-- BMSR link-status bit. -/
def PHY_REG_BMSR_LINK_STATUS : Nat := 2 ^ 2

/-- `PhyStatus` of `phy_dp83848.rs`: an immutable snapshot of one BMSR read. -/
structure PhyStatus where
  bmsr : Nat
deriving DecidableEq, Repr

/-- `PhyStatus::link_detected`: `(bmsr & LINK_STATUS) == LINK_STATUS`. -/
def PhyStatus.link_detected (s : PhyStatus) : Bool :=
  decide ((s.bmsr &&& PHY_REG_BMSR_LINK_STATUS) = PHY_REG_BMSR_LINK_STATUS)

/-- `PhyStatus::autoneg_done`: auto-negotiation complete bit of the snapshot. -/
def PhyStatus.autoneg_done (s : PhyStatus) : Bool :=
  decide ((s.bmsr &&& PHY_REG_BMSR_AUTONEG_COMPLETE) = PHY_REG_BMSR_AUTONEG_COMPLETE)

/-- `PhyStatus::is_full_duplex`: `None` without link, otherwise whether one of
the full-duplex ability bits is set. -/
def PhyStatus.is_full_duplex (s : PhyStatus) : Option Bool :=
  if (s.bmsr &&& PHY_REG_BMSR_LINK_STATUS) ≠ PHY_REG_BMSR_LINK_STATUS then
    none
  else if (s.bmsr &&& PHY_REG_BMSR_100_FULL) = PHY_REG_BMSR_100_FULL
      ∨ (s.bmsr &&& PHY_REG_BMSR_10_FULL) = PHY_REG_BMSR_10_FULL then
    some true
  else
    some false

/-- `PhyStatus::speed`: 0 without link, else 100 on a 100BASE ability bit,
else 10 on a 10BASE ability bit, else 0. -/
def PhyStatus.speed (s : PhyStatus) : Nat :=
  if (s.bmsr &&& PHY_REG_BMSR_LINK_STATUS) ≠ PHY_REG_BMSR_LINK_STATUS then
    0
  else if (s.bmsr &&& PHY_REG_BMSR_100_FULL) = PHY_REG_BMSR_100_FULL
      ∨ (s.bmsr &&& PHY_REG_BMSR_100_HALF) = PHY_REG_BMSR_100_HALF then
    100
  else if (s.bmsr &&& PHY_REG_BMSR_10_FULL) = PHY_REG_BMSR_10_FULL
      ∨ (s.bmsr &&& PHY_REG_BMSR_10_HALF) = PHY_REG_BMSR_10_HALF then
    10
  else
    0

/-- `PhyStatus::remote_fault`: remote-fault bit of the snapshot. -/
def PhyStatus.remote_fault (s : PhyStatus) : Bool :=
  decide ((s.bmsr &&& PHY_REG_BMSR_REMOTE_FAULT) = PHY_REG_BMSR_REMOTE_FAULT)

/-- `impl PartialEq for PhyStatus` (phy_dp83848.rs lines 157-164): both
without link, or same link with same duplex and same speed. -/
def PhyStatus.eq (a b : PhyStatus) : Bool :=
  (a.link_detected == false && b.link_detected == false)
  || (a.link_detected == b.link_detected
      && decide (a.is_full_duplex = b.is_full_duplex)
      && decide (a.speed = b.speed))

/-- Characterization of `PhyStatus.eq` used by several theorems below. -/
theorem PhyStatus.eq_characterization (a b : PhyStatus) :
    PhyStatus.eq a b = true ↔
      ((a.link_detected = false ∧ b.link_detected = false) ∨
       (a.link_detected = true ∧ b.link_detected = true ∧
        a.is_full_duplex = b.is_full_duplex ∧ a.speed = b.speed)) := by
  cases ha : a.link_detected <;> cases hb : b.link_detected <;>
    simp [PhyStatus.eq, ha, hb]

/-- One event on the PHY management bus, as issued by the `Phy` methods:
a read-modify-write that sets `mask` in register `reg` (`SMI::set_bits`),
or a read of register `reg` observing `value` (`SMI::read`). -/
inductive PhyEvent where
  | setBits (reg : Nat) (mask : Nat) : PhyEvent
  | readReg (reg : Nat) (value : Nat) : PhyEvent
deriving DecidableEq, Repr

/-- Is the event a bus read? -/
def PhyEvent.isRead : PhyEvent → Bool
  | PhyEvent.readReg _ _ => true
  | PhyEvent.setBits _ _ => false

/-- A busy-wait loop over a stream of bus reads: `reads i` is the value the
`i`-th poll observes; the loop returns the index of the first poll whose
value satisfies `done`, or `none` when `fuel` polls did not suffice
(the source loop is unbounded; `fuel` only makes the model total). -/
def pollLoop (done : Nat → Bool) (reads : Nat → Nat) : Nat → Nat → Option Nat
  | 0, _ => none
  | fuel + 1, i => if done (reads i) then some i else pollLoop done reads fuel (i + 1)

theorem pollLoop_spec (done : Nat → Bool) (reads : Nat → Nat) :
    ∀ (fuel start k : Nat), pollLoop done reads fuel start = some k →
      start ≤ k ∧ done (reads k) = true ∧
        ∀ i, start ≤ i → i < k → done (reads i) = false := by
  intro fuel
  induction fuel with
  | zero => intro start k h; simp [pollLoop] at h
  | succ n ih =>
    intro start k h
    by_cases hd : done (reads start) = true
    · simp [pollLoop, hd] at h
      subst h
      exact ⟨Nat.le_refl _, hd, fun i h1 h2 => absurd h1 (Nat.not_le_of_lt h2)⟩
    · simp [pollLoop, hd] at h
      obtain ⟨h1, h2, h3⟩ := ih (start + 1) k h
      refine ⟨Nat.le_trans (Nat.le_succ _) h1, h2, fun i hi1 hi2 => ?_⟩
      rcases Nat.eq_or_lt_of_le hi1 with he | hl
      · subst he; exact Bool.eq_false_iff.mpr hd
      · exact h3 i hl hi2

/-- `Phy::reset` (phy_dp83848.rs lines 78-86): set the reset bit in BMCR,
then read BMCR until the reset bit is observed cleared. The result is the
trace of bus events, `none` when `fuel` polls did not reach completion. -/
def Phy.reset (reads : Nat → Nat) (fuel : Nat) : Option (List PhyEvent) :=
  match pollLoop
      (fun v => decide (¬ ((v &&& PHY_REG_BMCR_RESET) = PHY_REG_BMCR_RESET)))
      reads fuel 0 with
  | none => none
  | some k =>
      some (PhyEvent.setBits PHY_REG_BMCR PHY_REG_BMCR_RESET ::
        (List.range (k + 1)).map (fun i => PhyEvent.readReg PHY_REG_BMCR (reads i)))

/-- `Phy::set_autoneg` (phy_dp83848.rs lines 89-98): set the
auto-negotiation enable bit in BMCR, then read BMSR *while* the
auto-negotiation complete bit is set, i.e. return at the first read whose
complete bit is clear — exactly as the source loop condition is written. -/
def Phy.set_autoneg (reads : Nat → Nat) (fuel : Nat) : Option (List PhyEvent) :=
  match pollLoop
      (fun v => decide (¬ ((v &&& PHY_REG_BMSR_AUTONEG_COMPLETE) =
        PHY_REG_BMSR_AUTONEG_COMPLETE)))
      reads fuel 0 with
  | none => none
  | some k =>
      some (PhyEvent.setBits PHY_REG_BMCR PHY_REG_BMCR_AUTO_NEG ::
        (List.range (k + 1)).map (fun i => PhyEvent.readReg PHY_REG_BMSR (reads i)))

/-- `Phy::status` (phy_dp83848.rs lines 71-75): one BMSR read wrapped into a
`PhyStatus` snapshot, together with the trace of bus events it issues. -/
def Phy.status (reads : Nat → Nat) : PhyStatus × List PhyEvent :=
  ({ bmsr := reads 0 }, [PhyEvent.readReg PHY_REG_BMSR (reads 0)])

/-- `MTU` of lib.rs lines 57-58: fixed per-entry buffer capacity, the VLAN
frame maximum size. -/
def MTU : Nat := 1522

/-- Descriptor ownership flag: exactly one of hardware or software owns a
descriptor at any time. -/
inductive Ownership where
  | Hardware : Ownership
  | Software : Ownership
deriving DecidableEq, Repr

/-- `TxError` of the transmit ring: ring saturated, or frame too large for
the fixed buffer capacity. -/
inductive TxError where
  | WouldBlock : TxError
  | TooLarge : TxError
deriving DecidableEq, Repr

/-- `RxError` of the receive ring: no frame ready, or a hardware-flagged
fault consumed and discarded. -/
inductive RxError where
  | WouldBlock : RxError
  | Truncated : RxError
  | CrcOrFrameFault : RxError
deriving DecidableEq, Repr

/-- Observable side effects of the transmit path: the caller-supplied
filler closure ran, or a demand-poll write was issued to the DMA engine. -/
inductive TxEvent where
  | fillerInvoked : TxEvent
  | demandPoll : TxEvent
deriving DecidableEq, Repr

/-- Modelled from the spec: tx.rs is not under src/. One transmit ring
entry — a descriptor (ownership flag, frame length, first/last-segment
flags) paired with its fixed-size buffer (spec section 3). -/
structure TxEntry where
  owner : Ownership
  frameLength : Nat
  firstLastFlags : Bool
  buffer : List Nat
deriving DecidableEq, Repr

/-- Modelled from the spec: tx.rs is not under src/. The transmit ring —
entries plus the software-side cursor of the next entry to examine. -/
structure TxRing where
  entries : List TxEntry
  nextEntry : Nat
deriving DecidableEq, Repr

/-- Modelled from the spec: tx.rs is not under src/. `TxRing::send`,
transmit path steps 1-4 of spec section 4.3: fail `WouldBlock` when the
cursor descriptor is Hardware-owned; fail `TooLarge` when `length` exceeds
the fixed buffer capacity, touching no descriptor; otherwise run the filler
on the first `length` buffer bytes, program length and first/last flags,
hand the descriptor to Hardware and advance the cursor. Besides result and
new ring state it returns the observable `TxEvent`s. -/
def TxRing.send {R : Type} (ring : TxRing) (length : Nat)
    (filler : List Nat → List Nat × R) :
    Except TxError R × TxRing × List TxEvent :=
  match ring.entries.get? ring.nextEntry with
  | none => (Except.error TxError.WouldBlock, ring, [])
  | some entry =>
    if entry.owner = Ownership.Hardware then
      (Except.error TxError.WouldBlock, ring, [])
    else if MTU < length then
      (Except.error TxError.TooLarge, ring, [])
    else
      let fr := filler (entry.buffer.take length)
      let ring' : TxRing :=
        { entries := ring.entries.set ring.nextEntry
            { owner := Ownership.Hardware
              frameLength := length
              firstLastFlags := true
              buffer := fr.1 ++ entry.buffer.drop length }
          nextEntry := (ring.nextEntry + 1) % ring.entries.length }
      (Except.ok fr.2, ring', [TxEvent.fillerInvoked])

/-- `Eth::send` (lib.rs lines 298-306): run the ring send, then issue the
unconditional demand-poll write (`TxRing::demand_poll` is not under src/
and is modelled from the spec as the single `demandPoll` event), and return
the ring send's result. -/
def Eth.send {R : Type} (ring : TxRing) (length : Nat)
    (filler : List Nat → List Nat × R) :
    Except TxError R × TxRing × List TxEvent :=
  let r := TxRing.send ring length filler
  (r.1, r.2.1, r.2.2 ++ [TxEvent.demandPoll])

/-- Modelled from the spec: rx.rs is not under src/. One receive ring
entry — descriptor (ownership, hardware-reported frame length, fault
flags) paired with its buffer. -/
structure RxEntry where
  owner : Ownership
  frameLength : Nat
  errorFlags : Bool
  buffer : List Nat
deriving DecidableEq, Repr

/-- Modelled from the spec: rx.rs is not under src/. The receive ring —
entries plus the software-side cursor. -/
structure RxRing where
  entries : List RxEntry
  nextEntry : Nat
deriving DecidableEq, Repr

/-- Modelled from the spec: rx.rs is not under src/. `RxRing::new` (spec
section 4.3, construction): every descriptor starts Hardware-owned, ready
to accept frames, with its fixed-size buffer; the cursor starts at 0. -/
def RxRing.new (n : Nat) : RxRing :=
  { entries := List.replicate n
      { owner := Ownership.Hardware
        frameLength := 0
        errorFlags := false
        buffer := List.replicate MTU 0 }
    nextEntry := 0 }

/-- Modelled from the spec: rx.rs is not under src/. `RxRing::recv_next`,
receive path steps 1-3 of spec section 4.3: `WouldBlock` when the cursor
descriptor is Hardware-owned (nothing mutated); on a hardware-flagged
fault, release the descriptor back to Hardware, advance the cursor and
report the fault; otherwise expose the packet view trimmed to the reported
length, leaving the descriptor Software-owned. -/
def RxRing.recv_next (ring : RxRing) :
    Except RxError (Nat × List Nat) × RxRing :=
  match ring.entries.get? ring.nextEntry with
  | none => (Except.error RxError.WouldBlock, ring)
  | some entry =>
    if entry.owner = Ownership.Hardware then
      (Except.error RxError.WouldBlock, ring)
    else if entry.errorFlags then
      (Except.error RxError.CrcOrFrameFault,
        { entries := ring.entries.set ring.nextEntry
            { entry with owner := Ownership.Hardware, errorFlags := false,
                         frameLength := 0 }
          nextEntry := (ring.nextEntry + 1) % ring.entries.length })
    else
      (Except.ok (entry.frameLength, entry.buffer.take entry.frameLength), ring)

/-- The value `eth_interrupt_handler` (lib.rs lines 318-322) writes to the
DMA status register: normal-interrupt-summary (bit 16), receive-status
(bit 6) and transmit-status (bit 0) set, everything else zero. -/
def ETH_DMASR_CLEAR_BITS : Nat := 2 ^ 16 + 2 ^ 6 + 2 ^ 0

/-- `eth_interrupt_handler` (lib.rs lines 318-322) as the free function of
the DMA status register alone: the register's interrupt-cause bits are
write-1-to-clear, so writing `ETH_DMASR_CLEAR_BITS` clears exactly those
bits and leaves every other bit as it was. -/
def eth_interrupt_handler (dmasr : Nat) : Nat :=
  Nat.ldiff dmasr ETH_DMASR_CLEAR_BITS

/-- The driver state visible to the embedding: both rings, their cursors
inside them, and the DMA status register. -/
structure EthState where
  rxRing : RxRing
  txRing : TxRing
  dmasr : Nat

/-- `eth_interrupt_handler` lifted to the whole driver state: it takes only
the DMA status register, so the rings are untouched by construction. -/
def EthState.interruptStep (s : EthState) : EthState :=
  { s with dmasr := eth_interrupt_handler s.dmasr }

/-- The ring-level send emits no demand-poll event itself: the demand poll
of `Eth::send` is the only one. -/
theorem TxRing.send_no_demand_poll {R : Type} (ring : TxRing) (length : Nat)
    (filler : List Nat → List Nat × R) :
    TxEvent.demandPoll ∉ (TxRing.send ring length filler).2.2 := by
  unfold TxRing.send
  rcases h : ring.entries.get? ring.nextEntry with _ | entry
  · simp
  · by_cases h1 : entry.owner = Ownership.Hardware
    · simp [h1]
    · by_cases h2 : MTU < length
      · simp [h1, h2]
      · simp [h1, h2]

/-- A ring whose cursor descriptor is Hardware-owned answers `recv_next`
with `WouldBlock` and is returned unchanged. -/
theorem RxRing.recv_next_hw (ring : RxRing) (entry : RxEntry)
    (hget : ring.entries.get? ring.nextEntry = some entry)
    (hown : entry.owner = Ownership.Hardware) :
    RxRing.recv_next ring = (Except.error RxError.WouldBlock, ring) := by
  unfold RxRing.recv_next
  rw [hget]
  simp [hown]

/-- C1: `set_autoneg` is claimed to return only after a polled BMSR read
shows the auto-negotiation-complete bit set. On a PHY whose BMSR reads all
return 0 (complete bit clear) the call nevertheless returns after its very
first poll — the loop condition is inverted with respect to the claim and
to the source comment: the snapshot observed by the single polled read has
`autoneg_done = false`. -/
theorem set_autoneg_exits_while_complete_clear :
    Phy.set_autoneg (fun _ => 0) 1 =
      some [PhyEvent.setBits PHY_REG_BMCR PHY_REG_BMCR_AUTO_NEG,
            PhyEvent.readReg PHY_REG_BMSR 0] ∧
    PhyStatus.autoneg_done { bmsr := 0 } = false := by
  exact ⟨rfl, rfl⟩

/-- C2: two `PhyStatus` snapshots are equal under `PartialEq` exactly when
both report no link, or both report link with equal duplex and equal
speed; since the right-hand side mentions only `link_detected`,
`is_full_duplex` and `speed`, remote-fault and raw register bits never
influence equality. -/
theorem phyStatus_eq_iff_link_duplex_speed (a b : PhyStatus) :
    PhyStatus.eq a b = true ↔
      ((a.link_detected = false ∧ b.link_detected = false) ∨
       (a.link_detected = true ∧ b.link_detected = true ∧
        a.is_full_duplex = b.is_full_duplex ∧ a.speed = b.speed)) :=
  PhyStatus.eq_characterization a b

/-- C6: `reset` first issues the set of the reset bit in BMCR, then polls
BMCR; whenever it returns, the last polled read is the first one showing
the reset bit cleared — every earlier read still had it set. -/
theorem reset_sets_then_polls_until_cleared (reads : Nat → Nat) (fuel : Nat)
    (evs : List PhyEvent) (h : Phy.reset reads fuel = some evs) :
    ∃ k, evs = PhyEvent.setBits PHY_REG_BMCR PHY_REG_BMCR_RESET ::
          (List.range (k + 1)).map (fun i => PhyEvent.readReg PHY_REG_BMCR (reads i)) ∧
      (reads k &&& PHY_REG_BMCR_RESET) ≠ PHY_REG_BMCR_RESET ∧
      ∀ i, i < k → (reads i &&& PHY_REG_BMCR_RESET) = PHY_REG_BMCR_RESET := by
  unfold Phy.reset at h
  rcases hp : pollLoop
      (fun v => decide (¬ ((v &&& PHY_REG_BMCR_RESET) = PHY_REG_BMCR_RESET)))
      reads fuel 0 with _ | k
  · rw [hp] at h; exact absurd h (by simp)
  · rw [hp] at h
    obtain ⟨-, hdone, hbefore⟩ := pollLoop_spec _ reads fuel 0 k hp
    refine ⟨k, (Option.some.inj h).symm, ?_, ?_⟩
    · simpa using hdone
    · intro i hi
      simpa using hbefore i (Nat.zero_le i) hi

/-- C7: `status` issues exactly one bus read (of BMSR), issues no other bus
event, and returns the snapshot wrapping that single read's value. -/
theorem status_single_bus_read (reads : Nat → Nat) :
    ((Phy.status reads).2.filter PhyEvent.isRead).length = 1 ∧
    ((Phy.status reads).2.filter (fun e => ! e.isRead)).length = 0 ∧
    (Phy.status reads).2 =
      [PhyEvent.readReg PHY_REG_BMSR ((Phy.status reads).1.bmsr)] ∧
    (Phy.status reads).1.bmsr = reads 0 :=
  ⟨rfl, rfl, rfl, rfl⟩

/-- C9: `speed` only takes the values 0, 10 and 100; it is 0 whenever no
link is detected; and `is_full_duplex` is `none` exactly when no link is
detected. -/
theorem speed_duplex_link_consistency (s : PhyStatus) :
    (s.speed = 0 ∨ s.speed = 10 ∨ s.speed = 100) ∧
    (s.link_detected = false → s.speed = 0) ∧
    (s.is_full_duplex = none ↔ s.link_detected = false) := by
  refine ⟨?_, ?_, ?_⟩
  · unfold PhyStatus.speed
    split
    · exact Or.inl rfl
    · split
      · exact Or.inr (Or.inr rfl)
      · split
        · exact Or.inr (Or.inl rfl)
        · exact Or.inl rfl
  · intro h
    unfold PhyStatus.link_detected at h
    rw [decide_eq_false_iff_not] at h
    unfold PhyStatus.speed
    simp [h]
  · constructor
    · intro hfd
      unfold PhyStatus.is_full_duplex at hfd
      unfold PhyStatus.link_detected
      by_cases h : (s.bmsr &&& PHY_REG_BMSR_LINK_STATUS) = PHY_REG_BMSR_LINK_STATUS
      · rw [if_neg (not_not_intro h)] at hfd
        split at hfd <;> cases hfd
      · simp [h]
    · intro hl
      unfold PhyStatus.link_detected at hl
      rw [decide_eq_false_iff_not] at hl
      unfold PhyStatus.is_full_duplex
      rw [if_pos hl]

/-- Witness for C9 at the all-zero snapshot, which has no link. -/
theorem speed_duplex_link_witness : PhyStatus.speed { bmsr := 0 } = 0 :=
  (speed_duplex_link_consistency { bmsr := 0 }).2.1 (by decide)

/-- C10: the `PartialEq` relation on `PhyStatus` is an equivalence
relation: reflexive, symmetric and transitive. -/
theorem phyStatus_eq_equivalence :
    (∀ a : PhyStatus, PhyStatus.eq a a = true) ∧
    (∀ a b : PhyStatus, PhyStatus.eq a b = true → PhyStatus.eq b a = true) ∧
    (∀ a b c : PhyStatus, PhyStatus.eq a b = true → PhyStatus.eq b c = true →
      PhyStatus.eq a c = true) := by
  refine ⟨fun a => ?_, fun a b hab => ?_, fun a b c hab hbc => ?_⟩
  · cases ha : a.link_detected
    · exact (PhyStatus.eq_characterization a a).mpr (Or.inl ⟨ha, ha⟩)
    · exact (PhyStatus.eq_characterization a a).mpr (Or.inr ⟨ha, ha, rfl, rfl⟩)
  · rcases (PhyStatus.eq_characterization a b).mp hab with ⟨h1, h2⟩ | ⟨h1, h2, h3, h4⟩
    · exact (PhyStatus.eq_characterization b a).mpr (Or.inl ⟨h2, h1⟩)
    · exact (PhyStatus.eq_characterization b a).mpr (Or.inr ⟨h2, h1, h3.symm, h4.symm⟩)
  · rcases (PhyStatus.eq_characterization a b).mp hab with ⟨h1, h2⟩ | ⟨h1, h2, h3, h4⟩
    · rcases (PhyStatus.eq_characterization b c).mp hbc with ⟨h5, h6⟩ | ⟨h5, h6, h7, h8⟩
      · exact (PhyStatus.eq_characterization a c).mpr (Or.inl ⟨h1, h6⟩)
      · exact absurd h5 (by rw [h2]; exact Bool.false_ne_true)
    · rcases (PhyStatus.eq_characterization b c).mp hbc with ⟨h5, h6⟩ | ⟨h5, h6, h7, h8⟩
      · exact absurd h5 (by rw [h2]; exact fun hx => Bool.false_ne_true hx.symm)
      · exact (PhyStatus.eq_characterization a c).mpr
          (Or.inr ⟨h1, h6, h3.trans h7, h4.trans h8⟩)

/-- Witness for C10: transitivity applied to three concrete linked
snapshots, the middle one differing only in the remote-fault bit. -/
theorem phyStatus_eq_equivalence_witness :
    PhyStatus.eq { bmsr := 4 } { bmsr := 36 } = true :=
  phyStatus_eq_equivalence.2.2 { bmsr := 4 } { bmsr := 20 } { bmsr := 36 }
    (by decide) (by decide)

/-- Witness for C6: a PHY whose BMCR reads 0x8000 once and then 0, polled
with two reads available. -/
theorem reset_sets_then_polls_witness :
    ∃ k, ([PhyEvent.setBits PHY_REG_BMCR PHY_REG_BMCR_RESET,
           PhyEvent.readReg PHY_REG_BMCR 32768,
           PhyEvent.readReg PHY_REG_BMCR 0] : List PhyEvent) =
        PhyEvent.setBits PHY_REG_BMCR PHY_REG_BMCR_RESET ::
          (List.range (k + 1)).map (fun i => PhyEvent.readReg PHY_REG_BMCR
            ((fun j => if j = 0 then 32768 else 0) i)) ∧
      ((fun j => if j = 0 then 32768 else 0) k &&& PHY_REG_BMCR_RESET) ≠
        PHY_REG_BMCR_RESET ∧
      ∀ i, i < k →
        ((fun j => if j = 0 then 32768 else 0) i &&& PHY_REG_BMCR_RESET) =
          PHY_REG_BMCR_RESET :=
  reset_sets_then_polls_until_cleared (fun j => if j = 0 then 32768 else 0) 2 _
    (by decide)

/-- C3: `Eth::send` returns exactly the ring send's result, and its event
trace is the ring send's trace followed by one demand poll — the demand
poll is issued after the ring send, before returning, and it is the only
one, whatever the ring send's outcome. -/
theorem eth_send_always_demand_polls (R : Type) (ring : TxRing) (length : Nat)
    (filler : List Nat → List Nat × R) :
    (Eth.send ring length filler).1 = (TxRing.send ring length filler).1 ∧
    (Eth.send ring length filler).2.2 =
      (TxRing.send ring length filler).2.2 ++ [TxEvent.demandPoll] ∧
    TxEvent.demandPoll ∉ (TxRing.send ring length filler).2.2 :=
  ⟨rfl, rfl, TxRing.send_no_demand_poll ring length filler⟩

/-- A concrete one-entry transmit ring whose cursor descriptor is
Hardware-owned (still being transmitted). -/
def txRingHw : TxRing :=
  { entries := [{ owner := Ownership.Hardware, frameLength := 0,
                  firstLastFlags := false, buffer := List.replicate 4 0 }]
    nextEntry := 0 }

/-- Counterexample to C4 as stated: with the cursor descriptor
Hardware-owned, an oversize send (length 1523 > 1522) fails with
`WouldBlock`, not `TooLarge` — the availability check precedes the size
check. -/
theorem send_oversize_wouldblock_counterexample :
    (Eth.send txRingHw 1523 (fun buf => (buf, 0))).1 =
      Except.error TxError.WouldBlock ∧
    (Eth.send txRingHw 1523 (fun buf => (buf, 0))).1 ≠
      Except.error TxError.TooLarge := by
  refine ⟨rfl, ?_⟩
  intro h
  rw [show (Eth.send txRingHw 1523 (fun buf => (buf, 0))).1 =
      Except.error TxError.WouldBlock from rfl] at h
  simp at h

/-- C4 (amended): when the cursor descriptor is Software-owned and the
length exceeds the fixed capacity, `Eth::send` fails with `TooLarge`, the
ring (every descriptor and the cursor) is unchanged, and no
filler-invocation event occurs — only the unconditional demand poll. -/
theorem send_oversize_toolarge_when_software_owned (R : Type) (ring : TxRing)
    (length : Nat) (filler : List Nat → List Nat × R) (entry : TxEntry)
    (hget : ring.entries.get? ring.nextEntry = some entry)
    (hown : entry.owner = Ownership.Software)
    (hlen : MTU < length) :
    Eth.send ring length filler =
      (Except.error TxError.TooLarge, ring, [TxEvent.demandPoll]) := by
  unfold Eth.send TxRing.send
  rw [hget]
  simp [hown, hlen]

/-- A concrete one-entry transmit ring whose cursor descriptor is
Software-owned (free to fill). -/
def txRingSw : TxRing :=
  { entries := [{ owner := Ownership.Software, frameLength := 0,
                  firstLastFlags := false, buffer := List.replicate 4 0 }]
    nextEntry := 0 }

/-- Witness for the amended C4: oversize send into a free descriptor. -/
theorem send_oversize_toolarge_witness :
    Eth.send txRingSw 1523 (fun buf => (buf, 0)) =
      (Except.error TxError.TooLarge, txRingSw, [TxEvent.demandPoll]) :=
  send_oversize_toolarge_when_software_owned Nat txRingSw 1523
    (fun buf => (buf, 0))
    { owner := Ownership.Software, frameLength := 0,
      firstLastFlags := false, buffer := List.replicate 4 0 }
    rfl rfl (by decide)

/-- C5: whenever the descriptor at the cursor is Hardware-owned,
`recv_next` fails with `WouldBlock` and leaves the whole ring (descriptors
and cursor) unchanged; in particular, for every ring size N ≥ 1, a freshly
constructed receive ring (all descriptors Hardware-owned, nothing yet
deposited) answers `WouldBlock` unchanged. -/
theorem recv_next_wouldblock_when_hardware_owned :
    (∀ (ring : RxRing) (entry : RxEntry),
      ring.entries.get? ring.nextEntry = some entry →
      entry.owner = Ownership.Hardware →
      RxRing.recv_next ring = (Except.error RxError.WouldBlock, ring)) ∧
    (∀ n : Nat, 1 ≤ n →
      RxRing.recv_next (RxRing.new n) =
        (Except.error RxError.WouldBlock, RxRing.new n)) := by
  refine ⟨fun ring entry hget hown => RxRing.recv_next_hw ring entry hget hown,
    fun n hn => ?_⟩
  match n, hn with
  | m + 1, _ => exact RxRing.recv_next_hw _ _ rfl rfl

/-- Witness for C5: a fresh two-entry receive ring would block. -/
theorem recv_next_wouldblock_witness :
    RxRing.recv_next (RxRing.new 2) =
      (Except.error RxError.WouldBlock, RxRing.new 2) :=
  recv_next_wouldblock_when_hardware_owned.2 2 (by decide)

/-- C8: `eth_interrupt_handler` is a function of the DMA status register
alone; lifted to the driver state it leaves both rings (descriptors and
cursors) untouched, and on the register it clears exactly the three
interrupt-cause bits — transmit-status (bit 0), receive-status (bit 6) and
normal-interrupt-summary (bit 16) — while every other bit keeps its value. -/
theorem interrupt_handler_clears_only_cause_bits :
    (∀ s : EthState,
      (EthState.interruptStep s).rxRing = s.rxRing ∧
      (EthState.interruptStep s).txRing = s.txRing ∧
      (EthState.interruptStep s).dmasr = eth_interrupt_handler s.dmasr) ∧
    (∀ dmasr : Nat,
      Nat.testBit (eth_interrupt_handler dmasr) 0 = false ∧
      Nat.testBit (eth_interrupt_handler dmasr) 6 = false ∧
      Nat.testBit (eth_interrupt_handler dmasr) 16 = false ∧
      ∀ i : Nat, i ≠ 0 → i ≠ 6 → i ≠ 16 →
        Nat.testBit (eth_interrupt_handler dmasr) i = Nat.testBit dmasr i) := by
  constructor
  · exact fun s => ⟨rfl, rfl, rfl⟩
  · intro d
    have hmask : ∀ j : Nat, Nat.testBit (eth_interrupt_handler d) j =
        (Nat.testBit d j && ! Nat.testBit ETH_DMASR_CLEAR_BITS j) := fun j =>
      Nat.testBit_ldiff d ETH_DMASR_CLEAR_BITS j
    refine ⟨?_, ?_, ?_, ?_⟩
    · rw [hmask, show Nat.testBit ETH_DMASR_CLEAR_BITS 0 = true from by decide]
      simp
    · rw [hmask, show Nat.testBit ETH_DMASR_CLEAR_BITS 6 = true from by decide]
      simp
    · rw [hmask, show Nat.testBit ETH_DMASR_CLEAR_BITS 16 = true from by decide]
      simp
    · intro i h0 h6 h16
      rw [hmask]
      have hbit : Nat.testBit ETH_DMASR_CLEAR_BITS i = false := by
        rcases Nat.lt_or_ge i 17 with hlt | hge
        · interval_cases i <;> revert h0 h6 h16 <;> decide
        · exact Nat.testBit_eq_false_of_lt
            (Nat.lt_of_lt_of_le (by decide)
              (Nat.pow_le_pow_right (by decide) hge))
      rw [hbit]
      simp

/-- Witness for C8: the handler on an all-ones 16-bit status value leaves
bit 3 where it was. -/
theorem interrupt_handler_clears_only_cause_bits_witness :
    Nat.testBit (eth_interrupt_handler 65535) 3 = Nat.testBit 65535 3 :=
  (interrupt_handler_clears_only_cause_bits.2 65535).2.2.2 3
    (by decide) (by decide) (by decide)
